import Mathlib

/-!
# Verification of the malibu-ui audit scripts

Shallow embedding of the Python audit scripts in this repository:
* `html_parser.py` / `history_parser.py` — the `get_mui_component`
  classifier and the markdown report writes;
* `src/quick-ux-test.py` — interaction probe, accessibility scorer,
  heading-hierarchy walk, performance grade, browser cleanup;
* `test_history_headers.py` — header validation and process exit status.

Python strings are modelled as Lean `String`s (lists of code points);
Python slicing `s[:n]` is `pyTrunc n s`; `cls.split("-")[0]` is
`pySplitDashHead`; `cls.startswith(p)` is `pyStartsWith p`.
Float arithmetic in the accessibility scorer is modelled over `ℚ`;
Python `round` (round-half-to-even on the fractional part) is
`pythonRound`.
-/

namespace Malibu

/-- Python `s[:n]`: the first `n` code points of `s`. -/
def pyTrunc (n : Nat) (s : String) : String := ⟨s.data.take n⟩

/-- Python `s.startswith(p)`. -/
def pyStartsWith (p s : String) : Bool := p.data.isPrefixOf s.data

/-- Python `s.split("-")[0]`: everything before the first `'-'`
(the whole string when no `'-'` occurs). -/
def pySplitDashHead (s : String) : String := ⟨s.data.takeWhile (· ≠ '-')⟩

/-- A markup node as seen by `get_mui_component`: all the classifier reads
is `tag.get("class", [])`, the declared class-name list (empty when the
attribute is missing). -/
structure Tag where
  classes : List String

/-- The `for cls in classes` loop body of `get_mui_component`
(`html_parser.py` / `history_parser.py` lines 8–11): return
`cls.split("-")[0]` for the first `cls` with `cls.startswith("Mui")`,
else fall through to `"Unknown"`. -/
def findMui : List String → String
  | [] => "Unknown"
  | c :: rest => if pyStartsWith "Mui" c then pySplitDashHead c else findMui rest

/-- `get_mui_component(tag)` (`html_parser.py` / `history_parser.py`
lines 4–11): `"Unknown"` for an absent node, otherwise scan the class
list. -/
def get_mui_component : Option Tag → String
  | none => "Unknown"
  | some t => findMui t.classes

theorem findMui_append (l₁ : List String) (c : String) (l₂ : List String)
    (h₁ : ∀ cls ∈ l₁, pyStartsWith "Mui" cls = false)
    (h₂ : pyStartsWith "Mui" c = true) :
    findMui (l₁ ++ c :: l₂) = pySplitDashHead c := by
  induction l₁ with
  | nil => simp [findMui, h₂]
  | cons a l ih =>
    have ha : pyStartsWith "Mui" a = false := h₁ a (by simp)
    simp only [List.cons_append, findMui, ha, if_false, Bool.false_eq_true]
    exact ih fun cls hc => h₁ cls (by simp [hc])

theorem findMui_no_match (l : List String)
    (h : ∀ cls ∈ l, pyStartsWith "Mui" cls = false) :
    findMui l = "Unknown" := by
  induction l with
  | nil => rfl
  | cons a t ih =>
    have ha : pyStartsWith "Mui" a = false := h a (by simp)
    simp only [findMui, ha, Bool.false_eq_true, if_false]
    exact ih fun cls hc => h cls (by simp [hc])

/-- `l.isPrefixOf l' = true` exactly when `l'` extends `l`. -/
theorem isPrefixOf_eq_true_iff {α : Type} [DecidableEq α] (l l' : List α) :
    l.isPrefixOf l' = true ↔ ∃ t, l ++ t = l' := by
  induction l generalizing l' with
  | nil => simp [List.isPrefixOf]
  | cons a as ih =>
    cases l' with
    | nil => simp [List.isPrefixOf]
    | cons b bs =>
      simp only [List.isPrefixOf, Bool.and_eq_true, beq_iff_eq, ih bs,
        List.cons_append, List.cons.injEq]
      constructor
      · rintro ⟨rfl, t, rfl⟩; exact ⟨t, rfl, rfl⟩
      · rintro ⟨t, rfl, rfl⟩; exact ⟨rfl, t, rfl⟩

/-- Members of `takeWhile p l` satisfy `p`. -/
theorem mem_takeWhile_sat {α : Type} (p : α → Bool) (l : List α) :
    ∀ x ∈ l.takeWhile p, p x = true := by
  induction l with
  | nil => intro x hx; simp [List.takeWhile] at hx
  | cons a t ih =>
    intro x hx
    by_cases hp : p a
    · rw [List.takeWhile_cons, if_pos hp] at hx
      rcases List.mem_cons.mp hx with rfl | hx
      · exact hp
      · exact ih x hx
    · rw [List.takeWhile_cons, if_neg hp] at hx
      simp at hx

/-- A `"Mui"`-prefixed class token keeps its `"Mui"` prefix after
truncation at the first dash, and the truncation is dash-free. -/
theorem splitDashHead_mui (c : String) (h : pyStartsWith "Mui" c = true) :
    pyStartsWith "Mui" (pySplitDashHead c) = true ∧
      ('-') ∉ (pySplitDashHead c).data := by
  have hd : "Mui".data = ['M', 'u', 'i'] := rfl
  rw [pyStartsWith, hd, isPrefixOf_eq_true_iff] at h
  obtain ⟨t, ht⟩ := h
  constructor
  · rw [pyStartsWith, hd, isPrefixOf_eq_true_iff, pySplitDashHead, ← ht]
    refine ⟨t.takeWhile (· ≠ '-'), ?_⟩
    simp [List.takeWhile_cons]
  · intro hmem
    have := mem_takeWhile_sat (· ≠ '-') c.data '-' hmem
    simp at this

/-- C1: the classifier returns `"Unknown"` on an absent node (raising no
exception — it is a total function), returns the first class token that
starts with `"Mui"` truncated before its first `-` separator, returns
`"Unknown"` when no class token starts with `"Mui"`, and classifies
`["foo", "MuiButton-root", "bar"]` as `"MuiButton"`. -/
theorem get_mui_component_first_match (l₁ l₂ : List String) (c : String)
    (h₁ : ∀ cls ∈ l₁, pyStartsWith "Mui" cls = false)
    (h₂ : pyStartsWith "Mui" c = true) :
    get_mui_component none = "Unknown"
    ∧ get_mui_component (some ⟨l₁ ++ c :: l₂⟩) = pySplitDashHead c
    ∧ (∀ l : List String, (∀ cls ∈ l, pyStartsWith "Mui" cls = false) →
        get_mui_component (some ⟨l⟩) = "Unknown")
    ∧ get_mui_component (some ⟨["foo", "MuiButton-root", "bar"]⟩) = "MuiButton" := by
  refine ⟨rfl, findMui_append l₁ c l₂ h₁ h₂, ?_, by decide⟩
  intro l hl
  exact findMui_no_match l hl

/-- Witness for C1 at the concrete class list of the claim. -/
theorem get_mui_component_first_match_witness :
    get_mui_component none = "Unknown"
    ∧ get_mui_component (some ⟨["foo"] ++ "MuiButton-root" :: ["bar"]⟩) =
        pySplitDashHead "MuiButton-root"
    ∧ (∀ l : List String, (∀ cls ∈ l, pyStartsWith "Mui" cls = false) →
        get_mui_component (some ⟨l⟩) = "Unknown")
    ∧ get_mui_component (some ⟨["foo", "MuiButton-root", "bar"]⟩) = "MuiButton" :=
  get_mui_component_first_match ["foo"] ["bar"] "MuiButton-root"
    (by decide) (by decide)

theorem findMui_invariant (l : List String) :
    findMui l = "Unknown"
    ∨ (pyStartsWith "Mui" (findMui l) = true ∧ ('-') ∉ (findMui l).data) := by
  induction l with
  | nil => exact Or.inl rfl
  | cons c rest ih =>
    by_cases hc : pyStartsWith "Mui" c = true
    · right
      simp only [findMui, hc, if_true]
      exact splitDashHead_mui c hc
    · simpa only [findMui, hc, if_false] using ih

/-- C10: every classifier output is either the sentinel `"Unknown"` or a
dash-free label starting with `"Mui"`; the class token `"Mui"` itself is
returned whole. -/
theorem get_mui_component_label_invariant :
    (∀ t : Option Tag,
      get_mui_component t = "Unknown"
      ∨ (pyStartsWith "Mui" (get_mui_component t) = true
         ∧ ('-') ∉ (get_mui_component t).data))
    ∧ get_mui_component (some ⟨["Mui"]⟩) = "Mui" := by
  constructor
  · intro t
    match t with
    | none => exact Or.inl rfl
    | some tg => exact findMui_invariant tg.classes
  · decide

/-! ## Interaction probe (`src/quick-ux-test.py` lines 158–240)

The button loop iterates `enumerate(buttons[:4])`; inside a `try` it reads
the text, checks `is_enabled()`, and only when enabled clicks and appends
a success record `{'button': i+1, 'text': text[:50], 'success': True}`;
an exception is caught and appends `{'button': i+1, 'success': False,
'error': str(e)[:100]}`.  A disabled button falls through the `if` and
appends nothing.  The input loop iterates `enumerate(inputs[:3])` and
fills only inputs whose `type` attribute is in
`['text', 'search', 'email', 'number', None]`. -/

/-- A visible button as the probe loop observes it: its `text_content()`,
its `is_enabled()` answer, and `some msg` when `button.click()` raises an
exception whose `str` is `msg`. -/
structure Button where
  text : String
  enabled : Bool
  clickErr : Option String

/-- The two record shapes the button loop appends to
`interaction_results`. -/
inductive BtnRecord where
  | success (button : Nat) (text : String) : BtnRecord
  | failure (button : Nat) (error : String) : BtnRecord
deriving DecidableEq

def BtnRecord.button : BtnRecord → Nat
  | .success b _ => b
  | .failure b _ => b

/-- One iteration of the button loop at 0-based index `i`: the record
appended (if any) and the number of click actions invoked. -/
def probeButton (i : Nat) (b : Button) : Option BtnRecord × Nat :=
  if b.enabled then
    match b.clickErr with
    | none => (some (.success (i + 1) (pyTrunc 50 b.text)), 1)
    | some e => (some (.failure (i + 1) (pyTrunc 100 e)), 1)
  else (none, 0)

def buttonLoop (i : Nat) : List Button → List BtnRecord
  | [] => []
  | b :: bs =>
    match (probeButton i b).1 with
    | some r => r :: buttonLoop (i + 1) bs
    | none => buttonLoop (i + 1) bs

/-- `interaction_results` after the loop over `buttons[:4]`. -/
def buttonProbe (bs : List Button) : List BtnRecord := buttonLoop 0 (bs.take 4)

/-- Clicks performed on the button at 0-based index `i` of the probed
list. -/
def buttonClickCount (i : Nat) (bs : List Button) : Nat :=
  match (bs.take 4)[i]? with
  | some b => (probeButton i b).2
  | none => 0

theorem probeButton_button (i : Nat) (b : Button) (r : BtnRecord)
    (h : (probeButton i b).1 = some r) : r.button = i + 1 := by
  unfold probeButton at h
  by_cases he : b.enabled
  · rw [if_pos he] at h
    cases hc : b.clickErr with
    | none => rw [hc] at h; cases h; rfl
    | some e => rw [hc] at h; cases h; rfl
  · rw [if_neg he] at h
    cases h

theorem mem_buttonLoop (i : Nat) (l : List Button) (r : BtnRecord)
    (h : r ∈ buttonLoop i l) :
    ∃ j b, l[j]? = some b ∧ (probeButton (i + j) b).1 = some r := by
  induction l generalizing i with
  | nil => simp [buttonLoop] at h
  | cons b bs ih =>
    by_cases hpb : ∃ r', (probeButton i b).1 = some r'
    · obtain ⟨r', hr'⟩ := hpb
      rw [buttonLoop, hr'] at h
      rcases List.mem_cons.mp h with rfl | h
      · exact ⟨0, b, by simp, by simpa using hr'⟩
      · obtain ⟨j, b', hj, hp⟩ := ih (i + 1) h
        refine ⟨j + 1, b', by simpa using hj, ?_⟩
        have harith : i + (j + 1) = i + 1 + j := by omega
        rw [harith]
        exact hp
    · have hn : (probeButton i b).1 = none := by
        cases hx : (probeButton i b).1 with
        | none => rfl
        | some r' => exact absurd ⟨r', hx⟩ hpb
      rw [buttonLoop, hn] at h
      obtain ⟨j, b', hj, hp⟩ := ih (i + 1) h
      refine ⟨j + 1, b', by simpa using hj, ?_⟩
      have harith : i + (j + 1) = i + 1 + j := by omega
      rw [harith]
      exact hp

/-- C2 counterexample: a single visible, disabled button.  The code skips
the `if is_enabled` block entirely, so `interaction_results` stays empty:
no record of any kind — in particular no record "marked as skipped" — is
appended for the disabled button. -/
theorem buttonProbe_disabled_no_record :
    buttonProbe [⟨"Update Master List", false, none⟩] = []
    ∧ buttonClickCount 0 [⟨"Update Master List", false, none⟩] = 0 :=
  ⟨rfl, rfl⟩

/-- C2 (amended): among the first 4 enumerated visible buttons, a
disabled one is skipped — it is never clicked, and no record at all (in
particular no failure record) is appended for it in the interaction
results. -/
theorem buttonProbe_disabled_skipped (bs : List Button) (i : Nat) (b : Button)
    (hb : (bs.take 4)[i]? = some b) (hdis : b.enabled = false) :
    buttonClickCount i bs = 0
    ∧ (probeButton i b).1 = none
    ∧ ∀ r ∈ buttonProbe bs, r.button ≠ i + 1 := by
  have hne : ¬(b.enabled = true) := by simp [hdis]
  have hnone : (probeButton i b).1 = none := by
    unfold probeButton
    rw [if_neg hne]
  refine ⟨?_, hnone, ?_⟩
  · simp [buttonClickCount, hb, probeButton, hne]
  · intro r hr hcontra
    obtain ⟨j, b', hj, hp⟩ := mem_buttonLoop 0 (bs.take 4) r hr
    rw [Nat.zero_add] at hp
    have hbtn : r.button = j + 1 := probeButton_button j b' r hp
    have hji : j = i := by omega
    subst hji
    have hbb : b' = b := by
      rw [hb] at hj
      exact (Option.some.inj hj).symm
    rw [hbb, hnone] at hp
    cases hp

/-- Witness for C2 (amended) at a concrete two-button list whose second
button is disabled. -/
theorem buttonProbe_disabled_skipped_witness :
    buttonClickCount 1 [⟨"Save", true, none⟩, ⟨"Export", false, none⟩] = 0
    ∧ (probeButton 1 ⟨"Export", false, none⟩).1 = none
    ∧ ∀ r ∈ buttonProbe [⟨"Save", true, none⟩, ⟨"Export", false, none⟩],
        r.button ≠ 1 + 1 :=
  buttonProbe_disabled_skipped [⟨"Save", true, none⟩, ⟨"Export", false, none⟩]
    1 ⟨"Export", false, none⟩ rfl rfl

/-- A visible input as the input loop observes it: its `type` attribute
(`none` models a missing attribute, Python `None`), `some msg` when
`fill` (or the read-back) raises, and the value `input_value()` reads
back. -/
structure InputEl where
  itype : Option String
  fillErr : Option String
  value : String

/-- `['text', 'search', 'email', 'number', None]`. -/
def fillableTypes : List (Option String) :=
  [some "text", some "search", some "email", some "number", none]

/-- The two record shapes the input loop appends to `input_results`. -/
inductive InpRecord where
  | success (input : Nat) (itype : Option String) (testValue : String) : InpRecord
  | failure (input : Nat) (error : String) : InpRecord
deriving DecidableEq

/-- One iteration of the input loop at 0-based index `i`. -/
def probeInput (i : Nat) (e : InputEl) : Option InpRecord :=
  if e.itype ∈ fillableTypes then
    match e.fillErr with
    | none => some (.success (i + 1) e.itype e.value)
    | some err => some (.failure (i + 1) (pyTrunc 100 err))
  else none

def inputLoop (i : Nat) : List InputEl → List InpRecord
  | [] => []
  | e :: es =>
    match probeInput i e with
    | some r => r :: inputLoop (i + 1) es
    | none => inputLoop (i + 1) es

/-- `input_results` after the loop over `inputs[:3]`. -/
def inputProbe (es : List InputEl) : List InpRecord := inputLoop 0 (es.take 3)

theorem pyTrunc_length_le (n : Nat) (s : String) : (pyTrunc n s).length ≤ n :=
  List.length_take_le n s.data

/-- Completeness of the button loop: whatever record an iteration would
append for the element at position `j` is present in the loop's output,
regardless of what every other element does. -/
theorem buttonLoop_mem_of (l : List Button) :
    ∀ (i j : Nat) (b : Button) (r : BtnRecord),
      l[j]? = some b → (probeButton (i + j) b).1 = some r →
        r ∈ buttonLoop i l := by
  induction l with
  | nil =>
    intro i j b r hj _
    simp at hj
  | cons hd tl ih =>
    intro i j b r hj hr
    cases j with
    | zero =>
      have hb : hd = b := by simpa using hj
      subst hb
      rw [Nat.add_zero] at hr
      rw [buttonLoop, hr]
      exact List.mem_cons_self _ _
    | succ j' =>
      have hr' : (probeButton (i + 1 + j') b).1 = some r := by
        have harith : i + (j' + 1) = i + 1 + j' := by omega
        rw [← harith]
        exact hr
      have hmem := ih (i + 1) j' b r (by simpa using hj) hr'
      cases hhd : (probeButton i hd).1 with
      | some r0 =>
        rw [buttonLoop, hhd]
        exact List.mem_cons_of_mem _ hmem
      | none =>
        rw [buttonLoop, hhd]
        exact hmem

theorem buttonProbe_mem (bs : List Button) (j : Nat) (b : Button)
    (r : BtnRecord) (hj : (bs.take 4)[j]? = some b)
    (hr : (probeButton j b).1 = some r) : r ∈ buttonProbe bs := by
  apply buttonLoop_mem_of (bs.take 4) 0 j b r hj
  rw [Nat.zero_add]
  exact hr

/-- Completeness of the input loop, as `buttonLoop_mem_of`. -/
theorem inputLoop_mem_of (l : List InputEl) :
    ∀ (i j : Nat) (e : InputEl) (r : InpRecord),
      l[j]? = some e → probeInput (i + j) e = some r →
        r ∈ inputLoop i l := by
  induction l with
  | nil =>
    intro i j e r hj _
    simp at hj
  | cons hd tl ih =>
    intro i j e r hj hr
    cases j with
    | zero =>
      have he : hd = e := by simpa using hj
      subst he
      rw [Nat.add_zero] at hr
      rw [inputLoop, hr]
      exact List.mem_cons_self _ _
    | succ j' =>
      have hr' : probeInput (i + 1 + j') e = some r := by
        have harith : i + (j' + 1) = i + 1 + j' := by omega
        rw [← harith]
        exact hr
      have hmem := ih (i + 1) j' e r (by simpa using hj) hr'
      cases hhd : probeInput i hd with
      | some r0 =>
        rw [inputLoop, hhd]
        exact List.mem_cons_of_mem _ hmem
      | none =>
        rw [inputLoop, hhd]
        exact hmem

theorem inputProbe_mem (es : List InputEl) (j : Nat) (e : InputEl)
    (r : InpRecord) (hj : (es.take 3)[j]? = some e)
    (hr : probeInput j e = some r) : r ∈ inputProbe es := by
  apply inputLoop_mem_of (es.take 3) 0 j e r hj
  rw [Nat.zero_add]
  exact hr

/-- C6: per-element failure isolation, for ANY single failing element.
For every probed button list, if the enabled button at any position `i`
raises during `click`, then a failure record for element `i + 1` carrying
the exception message truncated to at most 100 characters is in the
interaction results, and the record of every other probed element — at
any position, for any list shape — is still present in the results
(probing is never aborted by one element's failure); likewise for the
input-fill loop at its 3-element cap. -/
theorem probe_failure_isolation
    (bs : List Button) (i : Nat) (b : Button) (msg : String)
    (hb : (bs.take 4)[i]? = some b)
    (hen : b.enabled = true) (herr : b.clickErr = some msg)
    (es : List InputEl) (k : Nat) (e : InputEl) (imsg : String)
    (he : (es.take 3)[k]? = some e)
    (ht : e.itype ∈ fillableTypes) (hf : e.fillErr = some imsg) :
    BtnRecord.failure (i + 1) (pyTrunc 100 msg) ∈ buttonProbe bs
    ∧ (pyTrunc 100 msg).length ≤ 100
    ∧ (∀ (j : Nat) (b' : Button) (r : BtnRecord),
        (bs.take 4)[j]? = some b' → (probeButton j b').1 = some r →
          r ∈ buttonProbe bs)
    ∧ InpRecord.failure (k + 1) (pyTrunc 100 imsg) ∈ inputProbe es
    ∧ (pyTrunc 100 imsg).length ≤ 100
    ∧ (∀ (j : Nat) (e' : InputEl) (r : InpRecord),
        (es.take 3)[j]? = some e' → probeInput j e' = some r →
          r ∈ inputProbe es) := by
  refine ⟨?_, pyTrunc_length_le 100 msg, ?_, ?_, pyTrunc_length_le 100 imsg, ?_⟩
  · apply buttonProbe_mem bs i b _ hb
    simp [probeButton, hen, herr]
  · intro j b' r hj hr
    exact buttonProbe_mem bs j b' r hj hr
  · apply inputProbe_mem es k e _ he
    simp [probeInput, ht, hf]
  · intro j e' r hj hr
    exact inputProbe_mem es j e' r hj hr

/-- Witness for C6 at the claim's example: 4 enabled buttons whose second
raises during click, and 3 fillable inputs whose second raises during
fill. -/
theorem probe_failure_isolation_witness :
    BtnRecord.failure (1 + 1) (pyTrunc 100 "Timeout 30000ms exceeded") ∈
        buttonProbe [⟨"Save", true, none⟩,
          ⟨"Delete", true, some "Timeout 30000ms exceeded"⟩,
          ⟨"Cancel", true, none⟩, ⟨"Help", true, none⟩]
    ∧ (pyTrunc 100 "Timeout 30000ms exceeded").length ≤ 100
    ∧ (∀ (j : Nat) (b' : Button) (r : BtnRecord),
        ([⟨"Save", true, none⟩,
          ⟨"Delete", true, some "Timeout 30000ms exceeded"⟩,
          ⟨"Cancel", true, none⟩, ⟨"Help", true, none⟩].take 4)[j]? = some b' →
        (probeButton j b').1 = some r →
          r ∈ buttonProbe [⟨"Save", true, none⟩,
            ⟨"Delete", true, some "Timeout 30000ms exceeded"⟩,
            ⟨"Cancel", true, none⟩, ⟨"Help", true, none⟩])
    ∧ InpRecord.failure (1 + 1) (pyTrunc 100 "element detached") ∈
        inputProbe [⟨some "text", none, "test value"⟩,
          ⟨some "search", some "element detached", ""⟩,
          ⟨none, none, "test value"⟩]
    ∧ (pyTrunc 100 "element detached").length ≤ 100
    ∧ (∀ (j : Nat) (e' : InputEl) (r : InpRecord),
        ([⟨some "text", none, "test value"⟩,
          ⟨some "search", some "element detached", ""⟩,
          ⟨none, none, "test value"⟩].take 3)[j]? = some e' →
        probeInput j e' = some r →
          r ∈ inputProbe [⟨some "text", none, "test value"⟩,
            ⟨some "search", some "element detached", ""⟩,
            ⟨none, none, "test value"⟩]) :=
  probe_failure_isolation
    [⟨"Save", true, none⟩, ⟨"Delete", true, some "Timeout 30000ms exceeded"⟩,
     ⟨"Cancel", true, none⟩, ⟨"Help", true, none⟩]
    1 ⟨"Delete", true, some "Timeout 30000ms exceeded"⟩
    "Timeout 30000ms exceeded" rfl rfl rfl
    [⟨some "text", none, "test value"⟩,
     ⟨some "search", some "element detached", ""⟩,
     ⟨none, none, "test value"⟩]
    1 ⟨some "search", some "element detached", ""⟩ "element detached"
    rfl (by decide) rfl

/-! ## Heading-hierarchy walk (`src/quick-ux-test.py` lines 269–276)

`lastLevel` starts at 0; for each heading level `level` in document
order, an issue is counted when `level > lastLevel + 1`, and `lastLevel`
is then set to `level` unconditionally. -/

/-- The `headings.forEach` fold with accumulator `lastLevel`. -/
def headingIssuesGo (lastLevel : Nat) : List Nat → Nat
  | [] => 0
  | level :: rest =>
      (if lastLevel + 1 < level then 1 else 0) + headingIssuesGo level rest

/-- `headingIssues` computed over the document-order list of heading
levels, starting from `lastLevel = 0`. -/
def headingIssues (levels : List Nat) : Nat := headingIssuesGo 0 levels

theorem headingIssuesGo_eq_countP (levels : List Nat) :
    ∀ lastLevel : Nat,
      headingIssuesGo lastLevel levels =
        ((lastLevel :: levels).zip levels).countP (fun p => p.1 + 1 < p.2) := by
  induction levels with
  | nil => intro lastLevel; rfl
  | cons l rest ih =>
    intro lastLevel
    rw [headingIssuesGo, List.zip_cons_cons, List.countP_cons, ih l]
    simp only [decide_eq_true_eq]
    omega

/-- C5: the heading-hierarchy issue count equals, position by position,
the number of headings whose level exceeds the previous level by more
than one (the level before the first heading being 0); `[1,3,4]` yields
exactly 1 issue and `[1,2,3]` yields 0. -/
theorem headingIssues_counts_jumps :
    (∀ levels : List Nat,
      headingIssues levels =
        ((0 :: levels).zip levels).countP (fun p => p.1 + 1 < p.2))
    ∧ headingIssues [1, 3, 4] = 1
    ∧ headingIssues [1, 2, 3] = 0 :=
  ⟨fun levels => headingIssuesGo_eq_countP levels 0, rfl, rfl⟩

/-! ## Performance grade (`src/quick-ux-test.py` lines 72–99)

`load_time` is measured in seconds; the report stores
`totalLoadTime = load_time * 1000` (milliseconds) and
`grade = 'excellent' if load_time < 2 else 'good' if load_time < 4 else
'needs-improvement'`.  Wall-clock durations are modelled over `ℚ`. -/

def totalLoadTimeMs (loadTimeSec : ℚ) : ℚ := loadTimeSec * 1000

def perfGrade (loadTimeSec : ℚ) : String :=
  if loadTimeSec < 2 then "excellent"
  else if loadTimeSec < 4 then "good"
  else "needs-improvement"

/-- C7: the grade is a pure function of total load time with fixed
thresholds at 2000 ms and 4000 ms: strictly below 2000 ms is
`"excellent"`, at least 2000 ms and strictly below 4000 ms is `"good"`,
and at least 4000 ms is `"needs-improvement"`; in particular 1500 ms,
3000 ms and 5000 ms load times grade as `"excellent"`, `"good"` and
`"needs-improvement"` respectively. -/
theorem perfGrade_thresholds :
    (∀ t : ℚ,
      (perfGrade t = "excellent" ↔ totalLoadTimeMs t < 2000)
      ∧ (perfGrade t = "good" ↔ 2000 ≤ totalLoadTimeMs t ∧ totalLoadTimeMs t < 4000)
      ∧ (perfGrade t = "needs-improvement" ↔ 4000 ≤ totalLoadTimeMs t))
    ∧ perfGrade (1500 / 1000) = "excellent"
    ∧ perfGrade (3000 / 1000) = "good"
    ∧ perfGrade (5000 / 1000) = "needs-improvement" := by
  refine ⟨?_, by norm_num [perfGrade], by norm_num [perfGrade], by norm_num [perfGrade]⟩
  intro t
  have h2 : t < 2 ↔ totalLoadTimeMs t < 2000 := by
    unfold totalLoadTimeMs; constructor <;> intro h <;> nlinarith
  have h4 : t < 4 ↔ totalLoadTimeMs t < 4000 := by
    unfold totalLoadTimeMs; constructor <;> intro h <;> nlinarith
  unfold perfGrade
  by_cases ha : t < 2
  · rw [if_pos ha]
    refine ⟨⟨fun _ => h2.mp ha, fun _ => rfl⟩, ?_, ?_⟩
    · constructor
      · intro h; exact absurd h (by decide)
      · rintro ⟨hge, _⟩; exact absurd (h2.mp ha) (by linarith)
    · constructor
      · intro h; exact absurd h (by decide)
      · intro hge; exact absurd (h2.mp ha) (by linarith)
  · rw [if_neg ha]
    by_cases hb : t < 4
    · rw [if_pos hb]
      refine ⟨?_, ⟨fun _ => ⟨?_, h4.mp hb⟩, fun _ => rfl⟩, ?_⟩
      · constructor
        · intro h; exact absurd h (by decide)
        · intro hlt; exact absurd (h2.mpr hlt) ha
      · have : ¬ t < 2 := ha
        have h2000 : (2000 : ℚ) ≤ totalLoadTimeMs t := by
          unfold totalLoadTimeMs; nlinarith [not_lt.mp ha]
        exact h2000
      · constructor
        · intro h; exact absurd h (by decide)
        · intro hge; exact absurd (h4.mp hb) (by linarith)
    · rw [if_neg hb]
      refine ⟨?_, ?_, ⟨fun _ => ?_, fun _ => rfl⟩⟩
      · constructor
        · intro h; exact absurd h (by decide)
        · intro hlt; exact absurd (h2.mpr hlt) ha
      · constructor
        · intro h; exact absurd h (by decide)
        · rintro ⟨_, hlt⟩; exact absurd (h4.mpr hlt) hb
      · unfold totalLoadTimeMs; nlinarith [not_lt.mp hb]

/-! ## Accessibility scorer (`src/quick-ux-test.py` lines 292–322)

The score starts at 0 and accumulates: alt-text coverage `* 20` (flat 20
when no images), label coverage `* 30` (flat 30 when no inputs),
`min(landmarks * 5, 20)`, `max(0, 20 - hierarchyIssues * 5)` only when
headings exist, and flat 10 when any focusable element exists; the
stored score is `round(accessibility_score)`.  Float arithmetic is
modelled over `ℚ`; Python 3 `round` is round-half-to-even
(`pythonRound`). -/

/-- The counts returned by the page-side accessibility evaluation. -/
structure AccessData where
  imagesTotal : Nat
  imagesWithAlt : Nat
  formsTotal : Nat
  formsLabeled : Nat
  landmarks : Nat
  headingsTotal : Nat
  hierarchyIssues : Nat
  focusable : Nat

/-- Python 3 `round` on a rational: round half to even. -/
def pythonRound (q : ℚ) : ℤ :=
  if q - ⌊q⌋ < 1 / 2 then ⌊q⌋
  else if 1 / 2 < q - ⌊q⌋ then ⌊q⌋ + 1
  else if ⌊q⌋ % 2 = 0 then ⌊q⌋ else ⌊q⌋ + 1

theorem floor_le_pythonRound (q : ℚ) : ⌊q⌋ ≤ pythonRound q := by
  unfold pythonRound; split_ifs <;> omega

theorem pythonRound_le_floor_add_one (q : ℚ) : pythonRound q ≤ ⌊q⌋ + 1 := by
  unfold pythonRound; split_ifs <;> omega

theorem pythonRound_mono {a b : ℚ} (h : a ≤ b) :
    pythonRound a ≤ pythonRound b := by
  rcases lt_or_le ⌊a⌋ ⌊b⌋ with hf | hf
  · calc pythonRound a ≤ ⌊a⌋ + 1 := pythonRound_le_floor_add_one a
      _ ≤ ⌊b⌋ := by omega
      _ ≤ pythonRound b := floor_le_pythonRound b
  · have hfe : ⌊a⌋ = ⌊b⌋ := le_antisymm (Int.floor_le_floor h) hf
    unfold pythonRound
    rw [hfe]
    split_ifs <;> first | omega | linarith

theorem pythonRound_near (q : ℚ) : |(pythonRound q : ℚ) - q| ≤ 1 / 2 := by
  have h0 : (⌊q⌋ : ℚ) ≤ q := Int.floor_le q
  have h1 : q < ⌊q⌋ + 1 := Int.lt_floor_add_one q
  unfold pythonRound
  split_ifs <;> rw [abs_le] <;> constructor <;> push_cast <;> linarith

/-- `(withAlt / total) * 20`, or flat 20 when no images exist. -/
def imagesPoints (total withAlt : Nat) : ℚ :=
  if 0 < total then (withAlt : ℚ) / total * 20 else 20

/-- `(labeled / total) * 30`, or flat 30 when no inputs exist. -/
def formsPoints (total labeled : Nat) : ℚ :=
  if 0 < total then (labeled : ℚ) / total * 30 else 30

/-- `min(landmarks * 5, 20)`. -/
def landmarksPoints (landmarks : Nat) : ℚ := min ((landmarks : ℚ) * 5) 20

/-- `max(0, 20 - hierarchyIssues * 5)` when headings exist, else no
points are added. -/
def headingsPoints (total issues : Nat) : ℚ :=
  if 0 < total then max 0 (20 - (issues : ℚ) * 5) else 0

/-- Flat 10 when any focusable element exists. -/
def focusablePoints (n : Nat) : ℚ := if 0 < n then 10 else 0

/-- The accumulated `accessibility_score` before rounding. -/
def accessibilityRaw (d : AccessData) : ℚ :=
  imagesPoints d.imagesTotal d.imagesWithAlt
    + formsPoints d.formsTotal d.formsLabeled
    + landmarksPoints d.landmarks
    + headingsPoints d.headingsTotal d.hierarchyIssues
    + focusablePoints d.focusable

/-- `round(accessibility_score)`, the integer stored in the report. -/
def accessibilityScore (d : AccessData) : ℤ := pythonRound (accessibilityRaw d)

theorem imagesPoints_mono (total : Nat) {a a' : Nat} (h : a ≤ a') :
    imagesPoints total a ≤ imagesPoints total a' := by
  unfold imagesPoints
  split_ifs with ht
  · have hc : (a : ℚ) ≤ (a' : ℚ) := by exact_mod_cast h
    have ht' : (0 : ℚ) < (total : ℚ) := by exact_mod_cast ht
    exact mul_le_mul_of_nonneg_right ((div_le_div_iff_of_pos_right ht').mpr hc) (by norm_num)
  · exact le_refl _

theorem formsPoints_mono (total : Nat) {a a' : Nat} (h : a ≤ a') :
    formsPoints total a ≤ formsPoints total a' := by
  unfold formsPoints
  split_ifs with ht
  · have hc : (a : ℚ) ≤ (a' : ℚ) := by exact_mod_cast h
    have ht' : (0 : ℚ) < (total : ℚ) := by exact_mod_cast ht
    exact mul_le_mul_of_nonneg_right ((div_le_div_iff_of_pos_right ht').mpr hc) (by norm_num)
  · exact le_refl _

theorem landmarksPoints_mono {a a' : Nat} (h : a ≤ a') :
    landmarksPoints a ≤ landmarksPoints a' := by
  unfold landmarksPoints
  refine min_le_min ?_ (le_refl _)
  have hc : (a : ℚ) ≤ (a' : ℚ) := by exact_mod_cast h
  exact mul_le_mul_of_nonneg_right hc (by norm_num)

theorem imagesPoints_bounds (total a : Nat) (h : a ≤ total) :
    0 ≤ imagesPoints total a ∧ imagesPoints total a ≤ 20 := by
  unfold imagesPoints
  split_ifs with ht
  · have ht' : (0 : ℚ) < (total : ℚ) := by exact_mod_cast ht
    have h1 : (a : ℚ) / total ≤ 1 := by
      rw [div_le_one ht']; exact_mod_cast h
    have h2 : (0 : ℚ) ≤ (a : ℚ) / total := by positivity
    constructor <;> linarith
  · norm_num

theorem formsPoints_bounds (total a : Nat) (h : a ≤ total) :
    0 ≤ formsPoints total a ∧ formsPoints total a ≤ 30 := by
  unfold formsPoints
  split_ifs with ht
  · have ht' : (0 : ℚ) < (total : ℚ) := by exact_mod_cast ht
    have h1 : (a : ℚ) / total ≤ 1 := by
      rw [div_le_one ht']; exact_mod_cast h
    have h2 : (0 : ℚ) ≤ (a : ℚ) / total := by positivity
    constructor <;> linarith
  · norm_num

theorem landmarksPoints_bounds (a : Nat) :
    0 ≤ landmarksPoints a ∧ landmarksPoints a ≤ 20 := by
  unfold landmarksPoints
  constructor
  · exact le_min (by positivity) (by norm_num)
  · exact min_le_right _ _

theorem headingsPoints_bounds (total issues : Nat) :
    0 ≤ headingsPoints total issues ∧ headingsPoints total issues ≤ 20 := by
  unfold headingsPoints
  split_ifs with ht
  · have h5 : (0 : ℚ) ≤ (issues : ℚ) * 5 := by positivity
    exact ⟨le_max_left _ _, max_le (by norm_num) (by linarith)⟩
  · norm_num

theorem focusablePoints_bounds (n : Nat) :
    0 ≤ focusablePoints n ∧ focusablePoints n ≤ 10 := by
  unfold focusablePoints
  split_ifs <;> norm_num

theorem accessibilityRaw_bounds (d : AccessData)
    (hA : d.imagesWithAlt ≤ d.imagesTotal)
    (hL : d.formsLabeled ≤ d.formsTotal) :
    0 ≤ accessibilityRaw d ∧ accessibilityRaw d ≤ 100 := by
  have h1 := imagesPoints_bounds d.imagesTotal d.imagesWithAlt hA
  have h2 := formsPoints_bounds d.formsTotal d.formsLabeled hL
  have h3 := landmarksPoints_bounds d.landmarks
  have h4 := headingsPoints_bounds d.headingsTotal d.hierarchyIssues
  have h5 := focusablePoints_bounds d.focusable
  unfold accessibilityRaw
  constructor <;> linarith [h1.1, h1.2, h2.1, h2.2, h3.1, h3.2, h4.1, h4.2, h5.1, h5.2]

theorem pythonRound_zero : pythonRound 0 = 0 := by
  norm_num [pythonRound]

theorem pythonRound_hundred : pythonRound 100 = 100 := by
  norm_num [pythonRound]

/-- C4: the accessibility score is monotonic in alt-text count, labeled
count and landmark count (other inputs fixed), always lies in `[0, 100]`,
and is the result of rounding the raw weighted sum to a nearest
integer. -/
theorem accessibilityScore_monotone_bounded (d : AccessData) (k k' : Nat)
    (hk : k ≤ k')
    (hA : d.imagesWithAlt ≤ d.imagesTotal)
    (hL : d.formsLabeled ≤ d.formsTotal) :
    accessibilityScore {d with imagesWithAlt := k}
        ≤ accessibilityScore {d with imagesWithAlt := k'}
    ∧ accessibilityScore {d with formsLabeled := k}
        ≤ accessibilityScore {d with formsLabeled := k'}
    ∧ accessibilityScore {d with landmarks := k}
        ≤ accessibilityScore {d with landmarks := k'}
    ∧ 0 ≤ accessibilityScore d ∧ accessibilityScore d ≤ 100
    ∧ |(accessibilityScore d : ℚ) - accessibilityRaw d| ≤ 1 / 2 := by
  refine ⟨?_, ?_, ?_, ?_, ?_, pythonRound_near _⟩
  · apply pythonRound_mono
    show imagesPoints d.imagesTotal k + formsPoints d.formsTotal d.formsLabeled
        + landmarksPoints d.landmarks
        + headingsPoints d.headingsTotal d.hierarchyIssues
        + focusablePoints d.focusable
      ≤ imagesPoints d.imagesTotal k' + formsPoints d.formsTotal d.formsLabeled
        + landmarksPoints d.landmarks
        + headingsPoints d.headingsTotal d.hierarchyIssues
        + focusablePoints d.focusable
    have h := imagesPoints_mono d.imagesTotal hk
    linarith
  · apply pythonRound_mono
    show imagesPoints d.imagesTotal d.imagesWithAlt + formsPoints d.formsTotal k
        + landmarksPoints d.landmarks
        + headingsPoints d.headingsTotal d.hierarchyIssues
        + focusablePoints d.focusable
      ≤ imagesPoints d.imagesTotal d.imagesWithAlt + formsPoints d.formsTotal k'
        + landmarksPoints d.landmarks
        + headingsPoints d.headingsTotal d.hierarchyIssues
        + focusablePoints d.focusable
    have h := formsPoints_mono d.formsTotal hk
    linarith
  · apply pythonRound_mono
    show imagesPoints d.imagesTotal d.imagesWithAlt
        + formsPoints d.formsTotal d.formsLabeled + landmarksPoints k
        + headingsPoints d.headingsTotal d.hierarchyIssues
        + focusablePoints d.focusable
      ≤ imagesPoints d.imagesTotal d.imagesWithAlt
        + formsPoints d.formsTotal d.formsLabeled + landmarksPoints k'
        + headingsPoints d.headingsTotal d.hierarchyIssues
        + focusablePoints d.focusable
    have h := landmarksPoints_mono hk
    linarith
  · have h0 := (accessibilityRaw_bounds d hA hL).1
    calc (0 : ℤ) = pythonRound 0 := pythonRound_zero.symm
      _ ≤ pythonRound (accessibilityRaw d) := pythonRound_mono h0
  · have h100 := (accessibilityRaw_bounds d hA hL).2
    calc accessibilityScore d ≤ pythonRound 100 := pythonRound_mono h100
      _ = 100 := pythonRound_hundred

/-- Witness for C4 at concrete counts (4 images / 2 with alt, 5 inputs /
3 labeled, 2 landmarks, 3 headings with 1 issue, 7 focusable), moving a
count from 1 up to 2. -/
theorem accessibilityScore_monotone_bounded_witness :
    accessibilityScore {(⟨4, 2, 5, 3, 2, 3, 1, 7⟩ : AccessData) with imagesWithAlt := 1}
        ≤ accessibilityScore {(⟨4, 2, 5, 3, 2, 3, 1, 7⟩ : AccessData) with imagesWithAlt := 2}
    ∧ accessibilityScore {(⟨4, 2, 5, 3, 2, 3, 1, 7⟩ : AccessData) with formsLabeled := 1}
        ≤ accessibilityScore {(⟨4, 2, 5, 3, 2, 3, 1, 7⟩ : AccessData) with formsLabeled := 2}
    ∧ accessibilityScore {(⟨4, 2, 5, 3, 2, 3, 1, 7⟩ : AccessData) with landmarks := 1}
        ≤ accessibilityScore {(⟨4, 2, 5, 3, 2, 3, 1, 7⟩ : AccessData) with landmarks := 2}
    ∧ 0 ≤ accessibilityScore ⟨4, 2, 5, 3, 2, 3, 1, 7⟩
    ∧ accessibilityScore ⟨4, 2, 5, 3, 2, 3, 1, 7⟩ ≤ 100
    ∧ |(accessibilityScore (⟨4, 2, 5, 3, 2, 3, 1, 7⟩ : AccessData) : ℚ)
          - accessibilityRaw ⟨4, 2, 5, 3, 2, 3, 1, 7⟩| ≤ 1 / 2 :=
  accessibilityScore_monotone_bounded ⟨4, 2, 5, 3, 2, 3, 1, 7⟩ 1 2
    (by decide) (by decide) (by decide)

/-! ## Header validation (`test_history_headers.py` lines 26–137)

The script counts, for each of 7 expected header texts, the elements
matching `text=<header>`; it then counts `<thead>` elements.
`total_issues` adds one per missing header, one per duplicated header,
one if there is no `<thead>` and one if there are several.  Whether the
header texts actually sit inside the `<thead>` is computed
(`headers_in_thead`) and printed, but never added to `total_issues`.
`__main__` exits with `0 if success else 1` where
`success = (total_issues == 0)`. -/

/-- The 7 expected header texts (`headers_to_check`). -/
def headersToCheck : List String :=
  ["Deck Name", "Deck Status", "Processing Status", "Progress",
   "Created", "Completed", "Actions"]

/-- The history page as the validation script observes it: how many
elements match `text=<t>` for a text `t`, and the text contents of the
`<thead>` elements in document order. -/
structure HistoryPage where
  textCount : String → Nat
  theads : List String

/-- `total_issues` (lines 94–114). -/
def totalIssues (p : HistoryPage) : Nat :=
  (headersToCheck.filter (fun h => p.textCount h = 0)).length
    + (headersToCheck.filter (fun h => 1 < p.textCount h)).length
    + (if p.theads.length = 0 then 1 else if 1 < p.theads.length then 1 else 0)

/-- The process exit status: `sys.exit(0 if success else 1)` with
`success = (total_issues == 0)`. -/
def historyExitStatus (p : HistoryPage) : Nat :=
  if totalIssues p = 0 then 0 else 1

/-- `containsSeq sub l`: `sub` occurs contiguously inside `l`
(Python `sub in l` on strings). -/
def containsSeq (sub : List Char) : List Char → Bool
  | [] => sub.isEmpty
  | c :: rest => sub.isPrefixOf (c :: rest) || containsSeq sub rest

/-- Claim-side reading (from the spec words, for comparison with the
code): "the headers are correctly positioned inside the table header
structure" — every expected header text occurs inside some `<thead>`
element's text. -/
def headersPositioned (p : HistoryPage) : Bool :=
  headersToCheck.all (fun h => p.theads.any (fun t => containsSeq h.data t.data))

/-- A page where every expected header text occurs exactly once, exactly
one `<thead>` exists, but the `<thead>` contains none of the header
texts. -/
def strayHeaderPage : HistoryPage where
  textCount := fun h => if h ∈ headersToCheck then 1 else 0
  theads := ["x"]

/-- C3 counterexample: on `strayHeaderPage` the script exits 0 even
though the headers are not positioned inside the table header structure
— the `headers_in_thead` check never feeds `total_issues`. -/
theorem historyExitStatus_ignores_positioning :
    historyExitStatus strayHeaderPage = 0
    ∧ headersPositioned strayHeaderPage = false := by
  constructor
  · decide
  · decide

/-- C3 (amended): the script exits 0 iff each of the 7 expected header
texts is present exactly once and exactly one `<thead>` element exists;
any deviation among those checks yields exit status 1.  (Whether the
headers sit inside the `<thead>` is reported but does not affect the
status.) -/
theorem historyExitStatus_iff (p : HistoryPage) :
    historyExitStatus p = 0 ↔
      ((∀ h ∈ headersToCheck, p.textCount h = 1) ∧ p.theads.length = 1) := by
  have key : totalIssues p = 0 ↔
      ((∀ h ∈ headersToCheck, p.textCount h = 1) ∧ p.theads.length = 1) := by
    unfold totalIssues
    rw [Nat.add_eq_zero, Nat.add_eq_zero,
      ← List.countP_eq_length_filter, ← List.countP_eq_length_filter,
      List.countP_eq_zero, List.countP_eq_zero]
    simp only [decide_eq_true_eq]
    constructor
    · rintro ⟨⟨hm, hd⟩, ht⟩
      refine ⟨fun h hh => ?_, ?_⟩
      · have h1 := hm h hh
        have h2 := hd h hh
        omega
      · by_cases h0 : p.theads.length = 0
        · rw [if_pos h0] at ht
          exact absurd ht one_ne_zero
        · rw [if_neg h0] at ht
          by_cases h1 : 1 < p.theads.length
          · rw [if_pos h1] at ht
            exact absurd ht one_ne_zero
          · omega
    · rintro ⟨hall, hone⟩
      refine ⟨⟨fun h hh => ?_, fun h hh => ?_⟩, ?_⟩
      · have := hall h hh; omega
      · have := hall h hh; omega
      · rw [hone]; norm_num
  unfold historyExitStatus
  by_cases h : totalIssues p = 0
  · rw [if_pos h]
    exact ⟨fun _ => key.mp h, fun _ => rfl⟩
  · rw [if_neg h]
    exact ⟨fun h10 => absurd h10 one_ne_zero, fun hr => absurd (key.mpr hr) h⟩

/-! ## Markdown report writes (`html_parser.py` lines 32–45,
`history_parser.py` lines 25–31) -/

/-- `open(path, "w")`: the file is truncated before the writes. -/
def openWriteMode (_ : String) : String := ""

/-- `open(path, "a")`: the file keeps its prior content. -/
def openAppendMode (prior : String) : String := prior

/-- `f.write(s)` at the end of file content `file`. -/
def fwrite (file s : String) : String := file ++ s

/-- The five landmarks the history script classifies. -/
structure HistoryElems where
  startDate : Option Tag
  endDate : Option Tag
  reset : Option Tag
  readyTable : Option Tag
  completedTable : Option Tag

/-- The history section, i.e. the concatenation of the six lines
`history_parser.py` writes. -/
def historySection (e : HistoryElems) : String :=
  "  - **History Page** (`/history`)\n"
    ++ ("    - **Start Date Textbox:** `" ++ get_mui_component e.startDate ++ "`\n")
    ++ ("    - **End Date Textbox:** `" ++ get_mui_component e.endDate ++ "`\n")
    ++ ("    - **Reset Button:** `" ++ get_mui_component e.reset ++ "`\n")
    ++ ("    - **Ready to Continue Table:** `" ++ get_mui_component e.readyTable ++ "`\n")
    ++ ("    - **Completed Decks Table:** `" ++ get_mui_component e.completedTable ++ "`\n")

/-- The `with open("application_map.md", "a") as f:` block of
`history_parser.py`: six consecutive `f.write` calls in append mode,
starting from the prior file content. -/
def runHistoryReport (prior : String) (e : HistoryElems) : String :=
  fwrite (fwrite (fwrite (fwrite (fwrite (fwrite (openAppendMode prior)
    "  - **History Page** (`/history`)\n")
    ("    - **Start Date Textbox:** `" ++ get_mui_component e.startDate ++ "`\n"))
    ("    - **End Date Textbox:** `" ++ get_mui_component e.endDate ++ "`\n"))
    ("    - **Reset Button:** `" ++ get_mui_component e.reset ++ "`\n"))
    ("    - **Ready to Continue Table:** `" ++ get_mui_component e.readyTable ++ "`\n"))
    ("    - **Completed Decks Table:** `" ++ get_mui_component e.completedTable ++ "`\n")

/-- A navigation tab as the dashboard script renders it: the text
`f"{tab.string}"` interpolates and the tag whose classes are
classified. -/
structure NavTab where
  text : String
  tag : Tag

/-- The dashboard landmarks classified by `html_parser.py`. -/
structure DashboardElems where
  logo : Option Tag
  tabs : List NavTab
  logoutButton : Option Tag
  searchBar : Option Tag
  updateMasterList : Option Tag
  createCollectionDeck : Option Tag
  addScc : Option Tag
  sccsTable : Option Tag

/-- One line of the `for tab in tabs` loop. -/
def tabLine (t : NavTab) : String :=
  "      - **" ++ t.text ++ ":** `" ++ get_mui_component (some t.tag) ++ "`\n"

def concatLines : List String → String
  | [] => ""
  | s :: rest => s ++ concatLines rest

/-- The dashboard section as `html_parser.py` writes it. -/
def dashboardSection (d : DashboardElems) : String :=
  "- **VUE Dashboard** (`/`)\n"
    ++ "  - **Header**\n"
    ++ ("    - **VUE Logo:** `" ++ get_mui_component d.logo ++ "`\n")
    ++ "    - **Navigation Links:**\n"
    ++ concatLines (d.tabs.map tabLine)
    ++ ("    - **Logout Button:** `" ++ get_mui_component d.logoutButton ++ "`\n")
    ++ "  - **Main Content Area**\n"
    ++ ("    - **Search SCCs...:** `" ++ get_mui_component d.searchBar ++ "`\n")
    ++ ("    - **\"Update Master List\" Button:** `"
        ++ get_mui_component d.updateMasterList ++ "`\n")
    ++ ("    - **\"Create Collection Deck\" Button:** `"
        ++ get_mui_component d.createCollectionDeck ++ "`\n")
    ++ ("    - **\"ADD SCC\" Button:** `" ++ get_mui_component d.addScc ++ "`\n")
    ++ ("    - **SCCs Table:** `" ++ get_mui_component d.sccsTable ++ "`\n")

/-- The `for tab in tabs` write loop. -/
def writeTabs (file : String) (tabs : List NavTab) : String :=
  tabs.foldl (fun f t => fwrite f (tabLine t)) file

/-- The `with open("application_map.md", "w") as f:` block of
`html_parser.py`: truncate, four writes, the tab loop, then seven more
writes. -/
def runDashboardReport (prior : String) (d : DashboardElems) : String :=
  fwrite (fwrite (fwrite (fwrite (fwrite (fwrite (fwrite
    (writeTabs
      (fwrite (fwrite (fwrite (fwrite (openWriteMode prior)
        "- **VUE Dashboard** (`/`)\n")
        "  - **Header**\n")
        ("    - **VUE Logo:** `" ++ get_mui_component d.logo ++ "`\n"))
        "    - **Navigation Links:**\n")
      d.tabs)
    ("    - **Logout Button:** `" ++ get_mui_component d.logoutButton ++ "`\n"))
    "  - **Main Content Area**\n")
    ("    - **Search SCCs...:** `" ++ get_mui_component d.searchBar ++ "`\n"))
    ("    - **\"Update Master List\" Button:** `"
      ++ get_mui_component d.updateMasterList ++ "`\n"))
    ("    - **\"Create Collection Deck\" Button:** `"
      ++ get_mui_component d.createCollectionDeck ++ "`\n"))
    ("    - **\"ADD SCC\" Button:** `" ++ get_mui_component d.addScc ++ "`\n"))
    ("    - **SCCs Table:** `" ++ get_mui_component d.sccsTable ++ "`\n")

theorem writeTabs_eq (tabs : List NavTab) :
    ∀ file : String, writeTabs file tabs = file ++ concatLines (tabs.map tabLine) := by
  induction tabs with
  | nil =>
    intro file
    simp [writeTabs, concatLines]
  | cons t ts ih =>
    intro file
    have step : writeTabs file (t :: ts) = writeTabs (fwrite file (tabLine t)) ts := rfl
    rw [step, ih, fwrite, List.map_cons, concatLines, String.append_assoc]

/-- C8: the history-mapping script opens the report in append mode and
never truncates prior content — for any prior content the result is
exactly the prior content followed by the new history section; only the
dashboard-mapping script, which opens in write mode, produces the file
fresh, independent of prior content. -/
theorem report_append_never_truncates (prior : String) (e : HistoryElems)
    (d : DashboardElems) :
    runHistoryReport prior e = prior ++ historySection e
    ∧ runDashboardReport prior d = dashboardSection d := by
  constructor
  · unfold runHistoryReport historySection openAppendMode fwrite
    simp [String.append_assoc]
  · unfold runDashboardReport dashboardSection openWriteMode
    rw [show ∀ a b : String, fwrite a b = a ++ b from fun a b => rfl] at *
    simp only [fwrite, writeTabs_eq]
    simp [String.append_assoc]

/-! ## Browser cleanup (`src/quick-ux-test.py` lines 31–504,
`test_history_headers.py` lines 8–132)

Both scripts launch a browser, run their body inside `try`, and close
the browser in `finally`.  `quick-ux-test.py`'s `except` clause prints
and re-raises; `test_history_headers.py`'s `except` clause returns
`False`.  The body's outcome (normal value or raised exception) is the
parameter; the embedding returns the run's outcome together with the
final state of the browser resource. -/

/-- Outcome of a script body: normal completion or a raised exception
carrying its message. -/
inductive Outcome (α : Type) where
  | ok : α → Outcome α
  | raised : String → Outcome α
deriving DecidableEq

/-- The browser resource; `closed` records whether `browser.close()` has
run. -/
structure BrowserRes where
  closed : Bool

/-- `quick-ux-test.py`: `browser = await p.chromium.launch(...)`;
`try: <body>` / `except Exception as e: print(...); raise e` /
`finally: await browser.close()`. -/
def uxTestRun {α : Type} (body : Outcome α) : Outcome α × BrowserRes :=
  let browser : BrowserRes := { closed := false }
  let result : Outcome α :=
    match body with
    | .ok v => .ok v
    | .raised e => .raised e
  let browser : BrowserRes := { browser with closed := true }
  (result, browser)

/-- `test_history_headers.py`: `browser = p.chromium.launch(...)`;
`try: <body>; return total_issues == 0` / `except Exception as e:
print(...); return False` / `finally: browser.close()`. -/
def historyHeadersRun (body : Outcome Bool) : Outcome Bool × BrowserRes :=
  let browser : BrowserRes := { closed := false }
  let result : Outcome Bool :=
    match body with
    | .ok v => .ok v
    | .raised _ => .ok false
  let browser : BrowserRes := { browser with closed := true }
  (result, browser)

/-- C9: on every exit path — normal completion, caught failure, or an
exception raised mid-run — the browser acquired at the start of the run
is closed before the run ends, in both automation scripts; the ux script
re-raises the exception while the header script converts it into a
`False` result, and both still close the browser. -/
theorem browser_closed_on_all_paths :
    (∀ (α : Type) (body : Outcome α), (uxTestRun body).2.closed = true)
    ∧ (∀ body : Outcome Bool, (historyHeadersRun body).2.closed = true)
    ∧ (∀ (α : Type) (v : α), (uxTestRun (Outcome.ok v)).1 = Outcome.ok v)
    ∧ (∀ (α : Type) (e : String),
        (uxTestRun (Outcome.raised e : Outcome α)).1 = Outcome.raised e)
    ∧ (∀ e : String, (historyHeadersRun (Outcome.raised e)).1 = Outcome.ok false) :=
  ⟨fun _ _ => rfl, fun _ => rfl, fun _ _ => rfl, fun _ _ => rfl, fun _ => rfl⟩

end Malibu
